import Mathlib

/-!
Verification development for `AD2_ELEX_with_demo.py`, a control script for a
Digilent Analog Discovery 2 instrument.  The script's observable behaviour is
the sequence of calls it issues to the vendor driver `dwf` plus the lists of
measurements it accumulates, so each Python function is embedded as a pure
Lean function producing either a call trace or an explicit state.  Voltages,
times and frequencies are embedded as exact rationals.
-/

namespace AD2

/-! ## Auxiliary power control (`_switch_variable_`, lines 207-261) -/

/-- Calls issued to the analog-IO (power supply) part of the driver:
`FDwfAnalogIOChannelNodeSet(handle, channel, node, value)` and
`FDwfAnalogIOEnableSet(handle, value)`.  The device handle is a fixed opaque
argument and is omitted.  Numeric values are collected as rationals; a Python
bool passed through `ctypes.c_int` becomes 1 or 0. -/
inductive IOCall where
  | channelNodeSet (channel node : ℤ) (value : ℚ)
  | enableSet (value : ℤ)
deriving DecidableEq

/-- The integer `ctypes.c_int` makes out of a Python bool. -/
def boolInt (b : Bool) : ℤ := if b then 1 else 0

/-- Embedding of the first definition of `_switch_variable_` (lines 207-233):
the driver-call trace it produces.  The body clamps the positive rail to
`[0, 5]` and the negative rail to `[-5, 0]`, writes both voltages, writes both
per-rail enable flags, and finally writes the master switch. -/
def switch_variable_fst (master_state positive_state negative_state : Bool)
    (positive_voltage negative_voltage : ℚ) : List IOCall :=
  let positive_voltage := max 0 (min 5 positive_voltage)
  let negative_voltage := max (-5) (min 0 negative_voltage)
  [ IOCall.channelNodeSet 0 1 positive_voltage,
    IOCall.channelNodeSet 1 1 negative_voltage,
    IOCall.channelNodeSet 0 0 (boolInt positive_state),
    IOCall.channelNodeSet 1 0 (boolInt negative_state),
    IOCall.enableSet (boolInt master_state) ]

/-- Embedding of the second definition of `_switch_variable_` (lines 235-261),
the one that is in effect at runtime since it shadows the first.  Its body is
translated independently from its own source lines. -/
def switch_variable_snd (master_state positive_state negative_state : Bool)
    (positive_voltage negative_voltage : ℚ) : List IOCall :=
  let positive_voltage := max 0 (min 5 positive_voltage)
  let negative_voltage := max (-5) (min 0 negative_voltage)
  [ IOCall.channelNodeSet 0 1 positive_voltage,
    IOCall.channelNodeSet 1 1 negative_voltage,
    IOCall.channelNodeSet 0 0 (boolInt positive_state),
    IOCall.channelNodeSet 1 0 (boolInt negative_state),
    IOCall.enableSet (boolInt master_state) ]

/-- The voltage value written to supply rail `rail` (node 1) by a trace:
the value of the first `channelNodeSet` call with that channel and node 1. -/
def appliedVoltage (tr : List IOCall) (rail : ℤ) : Option ℚ :=
  tr.findSome? fun c => match c with
    | IOCall.channelNodeSet ch node v =>
        if ch == rail && node == 1 then some v else none
    | _ => none

/-- Position of the first per-rail enable write (node 0) for `rail`. -/
def railEnableIdx (tr : List IOCall) (rail : ℤ) : ℕ :=
  tr.findIdx fun c => match c with
    | IOCall.channelNodeSet ch node _ => ch == rail && node == 0
    | _ => false

/-- Position of the first master-switch write (`FDwfAnalogIOEnableSet`). -/
def masterSwitchIdx (tr : List IOCall) : ℕ :=
  tr.findIdx fun c => match c with
    | IOCall.enableSet _ => true
    | _ => false

/-! ## Waveform generator control (`generate_function`, lines 144-197) -/

/-- The eleven waveform kinds of the `function` class (lines 130-142). -/
inductive FuncKind where
  | custom | sine | square | triangle | noise | dc | pulse
  | trapezium | sine_power | ramp_up | ramp_down
deriving DecidableEq

/-- Calls issued to the analog-out part of the driver by `generate_function`.
All calls address the carrier node; the handle and the constant
`AnalogOutNodeCarrier` argument are omitted.  `nodeDataSet` records the
buffer contents handed to the device and the declared length passed as the
final `ctypes.c_int` argument. -/
inductive OutCall where
  | nodeEnableSet (channel : ℤ) (enabled : Bool)
  | nodeFunctionSet (channel : ℤ) (func : FuncKind)
  | nodeDataSet (channel : ℤ) (buffer : List ℚ) (declaredLen : ℤ)
  | nodeFrequencySet (channel : ℤ) (value : ℚ)
  | nodeAmplitudeSet (channel : ℤ) (value : ℚ)
  | nodeOffsetSet (channel : ℤ) (value : ℚ)
  | nodeSymmetrySet (channel : ℤ) (value : ℚ)
  | runSet (channel : ℤ) (value : ℚ)
  | waitSet (channel : ℤ) (value : ℚ)
  | repeatSet (channel : ℤ) (value : ℤ)
  | outConfigure (channel : ℤ) (start : Bool)
deriving DecidableEq

/-- The first `n` steps of the copy loop of lines 169-171: a fresh
`ctypes.c_double * data_length` array is zero-initialised, then
`buffer[index] = data[index]` for each index in order. -/
def copyUpTo (data : List ℚ) : ℕ → List ℚ
  | 0 => List.replicate data.length 0
  | n + 1 => (copyUpTo data n).set n (data.getD n 0)

/-- The buffer contents after the whole copy loop (`range(0, len(buffer))`,
where `len(buffer) = data_length = len(data)`). -/
def buildBuffer (data : List ℚ) : List ℚ := copyUpTo data data.length

/-- Embedding of `generate_function` (lines 144-197): the trace of driver
calls.  The channel argument is decremented once at entry (line 160); the
data buffer is built and uploaded only for the custom function kind. -/
def generate_function (channel : ℤ) (func : FuncKind) (offset : ℚ)
    (frequency amplitude symmetry wait run_time : ℚ) (repeat_count : ℤ)
    (data : List ℚ) : List OutCall :=
  let ch := channel - 1
  [OutCall.nodeEnableSet ch true, OutCall.nodeFunctionSet ch func]
  ++ (if func = FuncKind.custom then
        [OutCall.nodeDataSet ch (buildBuffer data) (data.length : ℤ)]
      else [])
  ++ [OutCall.nodeFrequencySet ch frequency,
      OutCall.nodeAmplitudeSet ch amplitude,
      OutCall.nodeOffsetSet ch offset,
      OutCall.nodeSymmetrySet ch symmetry,
      OutCall.runSet ch run_time,
      OutCall.waitSet ch wait,
      OutCall.repeatSet ch repeat_count,
      OutCall.outConfigure ch true]

/-- The (buffer, declared length) pair of the first data-upload call of a
trace, if any. -/
def sentData (tr : List OutCall) : Option (List ℚ × ℤ) :=
  tr.findSome? fun c => match c with
    | OutCall.nodeDataSet _ buffer declaredLen => some (buffer, declaredLen)
    | _ => none

/-! ## Device session and buffered acquisition (`open_AD2`, `open_oscilloscope`,
`record_oscilloscope`, lines 26-121) -/

/-- The record that the script's functions expect the module-level name
`data` to denote: a device handle plus the acquisition parameters read back
in `record_oscilloscope`. -/
structure DwfData where
  handle : ℤ
  sampling_frequency : ℚ
  buffer_size : ℕ
deriving DecidableEq

/-- Runtime errors of the embedded Python fragments.  Reading an unbound
global name raises `NameError`. -/
inductive PyError where
  | nameError (name : String)
deriving DecidableEq

/-- The binding state of the module-level name `data`.  Nothing in the module
ever assigns it: the only module-scope statements are imports and `def`s, the
two assignments that would have populated it (lines 64-65 of
`open_oscilloscope`) are commented out, and the `data` occurrences inside
`main` (line 407) and the `data=[]` parameter of `generate_function` are
local.  Hence the module binding is absent. -/
def moduleData : Option DwfData := none

/-- Embedding of `open_AD2` (lines 26-36).  After the driver call that fills
`device_handle`, the function executes `data.handle = device_handle` and
`return data`; both read the module-level name `data`, so the result depends
on the module binding: unbound means `NameError`, otherwise the record is
updated with the fresh handle and returned. -/
def open_AD2 (module_data : Option DwfData) (new_handle : ℤ) :
    Except PyError DwfData :=
  match module_data with
  | none => Except.error (PyError.nameError "data")
  | some d => Except.ok { d with handle := new_handle }

/-- Embedding of the effect of `open_oscilloscope` (lines 38-66) on the
module-level `data` binding: all its statements are driver calls on
`device_data`, and the two assignments `data.sampling_frequency = ...`,
`data.buffer_size = ...` are commented out, so the binding is unchanged. -/
def open_oscilloscope (module_data : Option DwfData) : Option DwfData :=
  module_data

/-- The status value `constants.DwfStateDone.value` (the value 2 in the
WaveForms SDK) that the polling loop of `record_oscilloscope` waits for. -/
def DwfStateDone : ℤ := 2

/-- Iterations executed by the polling loop of lines 102-109, which reads the
instrument status once per iteration and exits the first time it observes
`DwfStateDone`.  The stream of status values read from the device is an input
`statuses`; the loop terminates exactly when a done status eventually
appears, and then its iteration count is the first index at which it does. -/
def pollIterations (statuses : ℕ → ℤ) (hdone : ∃ n, statuses n = DwfStateDone) :
    ℕ :=
  Nat.find hdone

/-- Embedding of `record_oscilloscope` (lines 90-121) after its polling loop:
the buffer copy allocates `data.buffer_size` doubles, the driver fills them
with device samples (input stream `devbuf`), the time vector is
`[moment / data.sampling_frequency for moment in range(0, data.buffer_size)]`,
and both lists are returned.  All of this reads the module-level name `data`,
so with that name unbound the step raises `NameError` instead. -/
def record_oscilloscope (module_data : Option DwfData) (devbuf : ℕ → ℚ) :
    Except PyError (List ℚ × List ℚ) :=
  match module_data with
  | none => Except.error (PyError.nameError "data")
  | some d =>
      Except.ok ((List.range d.buffer_size).map devbuf,
        (List.range d.buffer_size).map fun moment : ℕ =>
          (moment : ℚ) / d.sampling_frequency)

/-! ## Sweep controller (`main`, lines 270-411)

`main` hard-codes the sweep parameters (lines 275-280); the spec abstracts
them into a `SweepConfig`, so the loop structure of `main` is embedded as a
function of such a configuration, with `mainConfig` holding the script's
constants.  The measured voltages and the wall-clock readings are inputs from
the physical world; they are embedded as streams, `meas n` being the value
returned by the `n`-th `measure_oscilloscope` call and `clock n` the value
returned by the `n`-th `time.time()` call.  The elapsed-time origin
`start_time` is the reading `clock 0` taken at line 301. -/

/-- Sweep parameters: `main`'s `power_up` start value, `amplitude`,
`amplitude_slope`, `time_per_measurement` and `cycles` (lines 275-280). -/
structure SweepConfig where
  start : ℚ
  amplitude : ℚ
  step_size : ℚ
  settle_delay : ℚ
  cycles : ℕ
deriving DecidableEq

/-- Python `int()` applied to an exact ratio: truncation toward zero. -/
def pyInt (q : ℚ) : ℤ := if 0 ≤ q then ⌊q⌋ else ⌈q⌉

/-- `rmap_steps = int(amplitude/amplitude_slope)` (line 278). -/
def rmap_steps (c : SweepConfig) : ℤ := pyInt (c.amplitude / c.step_size)

/-- Iterations of each phase loop: `range(0, rmap_steps*2, 1)` has
`rmap_steps*2` iterations, none when that bound is nonpositive. -/
def phaseIters (c : SweepConfig) : ℕ := (rmap_steps c * 2).toNat

/-- Observable actions of one pass through a phase-loop body, in program
order: a `measure_oscilloscope` call on a channel, an append to
`ramp_measurements` or `opamp_measurements`, a `generate_function`
reconfiguration carrying the new DC offset, an append to `Times`, and the
`time.sleep` settle delay. -/
inductive SweepEvent where
  | measure (channel : ℕ)
  | appendRamp (value : ℚ)
  | appendOpamp (value : ℚ)
  | reconfigure (offset : ℚ)
  | appendTime (value : ℚ)
  | settleSleep (duration : ℚ)
deriving DecidableEq

/-- State of `main`'s sweep: the drive voltage `power_up`, the three growing
lists, the number of `measure_oscilloscope` and `time.time()` calls made so
far (to index the input streams), and the event trace. -/
structure SweepState where
  power_up : ℚ
  ramp_measurements : List ℚ
  opamp_measurements : List ℚ
  Times : List ℚ
  measIdx : ℕ
  clockIdx : ℕ
  events : List SweepEvent
deriving DecidableEq

/-- Events of one phase-loop body (lines 305-329 rising, 331-357 falling), in
source order: measure channel 1, append it to `ramp_measurements`, measure
channel 2, append it to `opamp_measurements`, step `power_up` (up when
`rising`, down otherwise) and reconfigure the generator with the new offset,
append the elapsed time, sleep. -/
def iterEvents (meas clock : ℕ → ℚ) (start_time step settle : ℚ)
    (rising : Bool) (s : SweepState) : List SweepEvent :=
  [SweepEvent.measure 1,
   SweepEvent.appendRamp (meas s.measIdx),
   SweepEvent.measure 2,
   SweepEvent.appendOpamp (meas (s.measIdx + 1)),
   SweepEvent.reconfigure (if rising then s.power_up + step else s.power_up - step),
   SweepEvent.appendTime (clock s.clockIdx - start_time),
   SweepEvent.settleSleep settle]

/-- One pass through a phase-loop body: the state after lines 307-329 (or
334-357 with the decrement at line 350). -/
def sweepIter (meas clock : ℕ → ℚ) (start_time step settle : ℚ)
    (rising : Bool) (s : SweepState) : SweepState :=
  { power_up := if rising then s.power_up + step else s.power_up - step
    ramp_measurements := s.ramp_measurements ++ [meas s.measIdx]
    opamp_measurements := s.opamp_measurements ++ [meas (s.measIdx + 1)]
    Times := s.Times ++ [clock s.clockIdx - start_time]
    measIdx := s.measIdx + 2
    clockIdx := s.clockIdx + 1
    events := s.events ++ iterEvents meas clock start_time step settle rising s }

/-- A whole phase loop: `n` passes through the body, left to right. -/
def sweepPhase (meas clock : ℕ → ℚ) (start_time step settle : ℚ)
    (rising : Bool) : ℕ → SweepState → SweepState
  | 0, s => s
  | n + 1, s =>
      sweepPhase meas clock start_time step settle rising n
        (sweepIter meas clock start_time step settle rising s)

/-- One cycle of the outer loop (lines 303-359): the rising phase, the
falling phase, then the `print` of line 359 which reads the clock once. -/
def sweepCycle (meas clock : ℕ → ℚ) (start_time step settle : ℚ)
    (iters : ℕ) (s : SweepState) : SweepState :=
  let s1 := sweepPhase meas clock start_time step settle true iters s
  let s2 := sweepPhase meas clock start_time step settle false iters s1
  { s2 with clockIdx := s2.clockIdx + 1 }

/-- `cycles` runs of the outer loop body. -/
def sweepCycles (meas clock : ℕ → ℚ) (start_time step settle : ℚ)
    (iters : ℕ) : ℕ → SweepState → SweepState
  | 0, s => s
  | n + 1, s =>
      sweepCycles meas clock start_time step settle iters n
        (sweepCycle meas clock start_time step settle iters s)

/-- State at line 300, after the initialisations of lines 272-275: empty
lists, `power_up` at the start voltage, no measurements yet.  `clockIdx`
starts at 1 because `start_time = time.time()` (line 301) consumes the
reading `clock 0`. -/
def initState (c : SweepConfig) : SweepState :=
  { power_up := c.start
    ramp_measurements := []
    opamp_measurements := []
    Times := []
    measIdx := 0
    clockIdx := 1
    events := [] }

/-- The sweep portion of `main` (lines 270-359), from the constants through
the outer cycle loop, as a function of the configuration and of the
measurement and clock streams. -/
def mainSweep (c : SweepConfig) (meas clock : ℕ → ℚ) : SweepState :=
  sweepCycles meas clock (clock 0) c.step_size c.settle_delay
    (phaseIters c) c.cycles (initState c)

/-- The constants hard-coded in `main` (lines 275-280): `power_up = -5`,
`amplitude = 5`, `amplitude_slope = 0.05`, `time_per_measurement = 1e-6`,
`cycles = 1`. -/
def mainConfig : SweepConfig :=
  { start := -5, amplitude := 5, step_size := 0.05,
    settle_delay := 1 / 1000000, cycles := 1 }

/-- The `data` list built at line 407: the recorded `SweepSample` triples
`(Times[i], ramp_measurements[i], opamp_measurements[i])` for
`i in range(0, len(Times))`. -/
def recordedSamples (s : SweepState) : List (ℚ × ℚ × ℚ) :=
  (List.range s.Times.length).map fun i =>
    (s.Times.getD i 0, s.ramp_measurements.getD i 0, s.opamp_measurements.getD i 0)

/-- Discriminator for elapsed-time appends, used to locate them in a trace. -/
def isAppendTime : SweepEvent → Bool
  | SweepEvent.appendTime _ => true
  | _ => false

/-- Discriminator for generator reconfigurations. -/
def isReconfigure : SweepEvent → Bool
  | SweepEvent.reconfigure _ => true
  | _ => false

/-- Invariant tying the recorded elapsed times to the clock stream: every
entry of `Times` is `clock j - start_time` for some already-consumed reading
`j`, and the list is sorted. -/
def TimesFrom (clock : ℕ → ℚ) (start_time : ℚ) (s : SweepState) : Prop :=
  (∀ t ∈ s.Times, ∃ j, j < s.clockIdx ∧ t = clock j - start_time) ∧
  s.Times.Pairwise (· ≤ ·)

/-! ## Helper lemmas -/

theorem copyUpTo_length (data : List ℚ) (n : ℕ) :
    (copyUpTo data n).length = data.length := by
  induction n with
  | zero => simp [copyUpTo]
  | succ n ih => simp [copyUpTo, ih]

theorem copyUpTo_opt (data : List ℚ) (n i : ℕ) (hn : i < n)
    (hi : i < data.length) : (copyUpTo data n)[i]? = data[i]? := by
  induction n with
  | zero => omega
  | succ n ih =>
    rcases Nat.lt_succ_iff_lt_or_eq.mp hn with h | h
    · have hne : n ≠ i := by omega
      rw [copyUpTo, List.getElem?_set_ne hne, ih h]
    · subst h
      rw [copyUpTo,
        List.getElem?_set_eq_of_lt _ (by simpa [copyUpTo_length] using hi),
        List.getElem?_eq_getElem hi]
      simp [List.getD_eq_getElem?_getD, List.getElem?_eq_getElem hi]

/-- The copy loop of `generate_function` reproduces the caller's list. -/
theorem buildBuffer_eq (data : List ℚ) : buildBuffer data = data := by
  apply List.ext_getElem?
  intro i
  by_cases hi : i < data.length
  · exact copyUpTo_opt data data.length i hi hi
  · rw [List.getElem?_eq_none
        (by simpa [buildBuffer, copyUpTo_length] using Nat.le_of_not_lt hi),
      List.getElem?_eq_none (Nat.le_of_not_lt hi)]

theorem pyInt_natCast (k : ℕ) : pyInt ((k : ℚ)) = k := by
  simp [pyInt, Nat.cast_nonneg]

/-- With an exact integer ratio `amplitude / step_size = k`, each phase loop
runs `2 * k` iterations. -/
theorem phaseIters_eq (c : SweepConfig) (k : ℕ)
    (hk : c.amplitude / c.step_size = (k : ℚ)) : phaseIters c = 2 * k := by
  have h : rmap_steps c = k := by rw [rmap_steps, hk, pyInt_natCast]
  rw [phaseIters, h]
  omega

theorem sweepPhase_Times_length (meas clock : ℕ → ℚ)
    (start_time step settle : ℚ) (rising : Bool) (n : ℕ) (s : SweepState) :
    (sweepPhase meas clock start_time step settle rising n s).Times.length =
      s.Times.length + n := by
  induction n generalizing s with
  | zero => rfl
  | succ n ih => simp [sweepPhase, ih, sweepIter]; omega

theorem sweepCycles_Times_length (meas clock : ℕ → ℚ)
    (start_time step settle : ℚ) (iters n : ℕ) (s : SweepState) :
    (sweepCycles meas clock start_time step settle iters n s).Times.length =
      s.Times.length + n * (2 * iters) := by
  induction n generalizing s with
  | zero => simp [sweepCycles]
  | succ n ih =>
    rw [sweepCycles, ih, sweepCycle]
    simp [sweepPhase_Times_length]
    ring

theorem sweepPhase_power (meas clock : ℕ → ℚ)
    (start_time step settle : ℚ) (rising : Bool) (n : ℕ) (s : SweepState) :
    (sweepPhase meas clock start_time step settle rising n s).power_up =
      if rising then s.power_up + n * step else s.power_up - n * step := by
  induction n generalizing s with
  | zero => cases rising <;> simp [sweepPhase]
  | succ n ih =>
    rw [sweepPhase, ih]
    cases rising <;> simp [sweepIter, Nat.cast_succ] <;> ring

/-- A full cycle returns the drive voltage to its value at cycle entry. -/
theorem sweepCycle_power (meas clock : ℕ → ℚ)
    (start_time step settle : ℚ) (iters : ℕ) (s : SweepState) :
    (sweepCycle meas clock start_time step settle iters s).power_up =
      s.power_up := by
  simp [sweepCycle, sweepPhase_power]

theorem sweepCycles_power (meas clock : ℕ → ℚ)
    (start_time step settle : ℚ) (iters n : ℕ) (s : SweepState) :
    (sweepCycles meas clock start_time step settle iters n s).power_up =
      s.power_up := by
  induction n generalizing s with
  | zero => rfl
  | succ n ih => rw [sweepCycles, ih, sweepCycle_power]

/-- With zero iterations per phase, a run of the outer loop leaves all three
measurement lists untouched. -/
theorem sweepCycles_zero_iters (meas clock : ℕ → ℚ)
    (start_time step settle : ℚ) (n : ℕ) (s : SweepState) :
    (sweepCycles meas clock start_time step settle 0 n s).Times = s.Times ∧
    (sweepCycles meas clock start_time step settle 0 n s).ramp_measurements =
      s.ramp_measurements ∧
    (sweepCycles meas clock start_time step settle 0 n s).opamp_measurements =
      s.opamp_measurements := by
  induction n generalizing s with
  | zero => exact ⟨rfl, rfl, rfl⟩
  | succ n ih => exact ih _

theorem sweepIter_TimesFrom (meas clock : ℕ → ℚ)
    (start_time step settle : ℚ) (rising : Bool) (s : SweepState)
    (hmono : Monotone clock) (h : TimesFrom clock start_time s) :
    TimesFrom clock start_time
      (sweepIter meas clock start_time step settle rising s) := by
  obtain ⟨hmem, hpw⟩ := h
  constructor
  · intro t ht
    rw [sweepIter] at ht ⊢
    simp only [List.mem_append, List.mem_singleton] at ht
    rcases ht with ht | ht
    · obtain ⟨j, hj, hje⟩ := hmem t ht
      refine ⟨j, ?_, hje⟩
      show j < s.clockIdx + 1
      omega
    · refine ⟨s.clockIdx, ?_, ht⟩
      show s.clockIdx < s.clockIdx + 1
      omega
  · rw [sweepIter]
    refine List.pairwise_append.mpr ⟨hpw, List.pairwise_singleton _ _, ?_⟩
    intro a ha b hb
    rw [List.mem_singleton] at hb
    obtain ⟨j, hj, hje⟩ := hmem a ha
    subst hje hb
    exact sub_le_sub_right (hmono (Nat.le_of_lt hj)) _

theorem sweepPhase_TimesFrom (meas clock : ℕ → ℚ)
    (start_time step settle : ℚ) (rising : Bool) (n : ℕ) (s : SweepState)
    (hmono : Monotone clock) (h : TimesFrom clock start_time s) :
    TimesFrom clock start_time
      (sweepPhase meas clock start_time step settle rising n s) := by
  induction n generalizing s with
  | zero => exact h
  | succ n ih =>
    exact ih _ (sweepIter_TimesFrom meas clock start_time step settle rising s
      hmono h)

theorem TimesFrom_clockBump (clock : ℕ → ℚ) (start_time : ℚ) (s : SweepState)
    (h : TimesFrom clock start_time s) :
    TimesFrom clock start_time { s with clockIdx := s.clockIdx + 1 } := by
  obtain ⟨hmem, hpw⟩ := h
  refine ⟨?_, hpw⟩
  intro t ht
  obtain ⟨j, hj, hje⟩ := hmem t ht
  refine ⟨j, ?_, hje⟩
  show j < s.clockIdx + 1
  omega

theorem sweepCycles_TimesFrom (meas clock : ℕ → ℚ)
    (start_time step settle : ℚ) (iters n : ℕ) (s : SweepState)
    (hmono : Monotone clock) (h : TimesFrom clock start_time s) :
    TimesFrom clock start_time
      (sweepCycles meas clock start_time step settle iters n s) := by
  induction n generalizing s with
  | zero => exact h
  | succ n ih =>
    refine ih _ ?_
    exact TimesFrom_clockBump clock start_time _
      (sweepPhase_TimesFrom meas clock start_time step settle false iters _
        hmono
        (sweepPhase_TimesFrom meas clock start_time step settle true iters s
          hmono h))

theorem sweepPhase_events_prefix (meas clock : ℕ → ℚ)
    (start_time step settle : ℚ) (rising : Bool) (n : ℕ) (s : SweepState) :
    ∃ l, (sweepPhase meas clock start_time step settle rising n s).events =
      s.events ++ l := by
  induction n generalizing s with
  | zero => exact ⟨[], (List.append_nil _).symm⟩
  | succ n ih =>
    obtain ⟨l, hl⟩ :=
      ih (sweepIter meas clock start_time step settle rising s)
    refine ⟨iterEvents meas clock start_time step settle rising s ++ l, ?_⟩
    rw [sweepPhase, hl, sweepIter, List.append_assoc]

theorem sweepCycles_events_prefix (meas clock : ℕ → ℚ)
    (start_time step settle : ℚ) (iters n : ℕ) (s : SweepState) :
    ∃ l, (sweepCycles meas clock start_time step settle iters n s).events =
      s.events ++ l := by
  induction n generalizing s with
  | zero => exact ⟨[], (List.append_nil _).symm⟩
  | succ n ih =>
    obtain ⟨l₁, hl₁⟩ := sweepPhase_events_prefix meas clock start_time step
      settle true iters s
    obtain ⟨l₂, hl₂⟩ := sweepPhase_events_prefix meas clock start_time step
      settle false iters
      (sweepPhase meas clock start_time step settle true iters s)
    obtain ⟨l₃, hl₃⟩ :=
      ih (sweepCycle meas clock start_time step settle iters s)
    refine ⟨(l₁ ++ l₂) ++ l₃, ?_⟩
    rw [sweepCycles, hl₃, sweepCycle]
    show (sweepPhase meas clock start_time step settle false iters _).events
      ++ l₃ = _
    rw [hl₂, hl₁]
    simp [List.append_assoc]

/-! ## Claim theorems -/

/-- Claim C4: for every input to the power-supply operation, the positive
voltage written to the device is the input clamped to `[0, 5]` and the
negative voltage written is the input clamped to `[-5, 0]`; in particular
`positive_voltage = 10` yields exactly 5 and `negative_voltage = -10` yields
exactly -5, and both per-rail enable writes precede the master-switch
write. -/
theorem switch_supplies_spec (master_state positive_state negative_state : Bool)
    (positive_voltage negative_voltage : ℚ) :
    appliedVoltage (switch_variable_snd master_state positive_state
        negative_state positive_voltage negative_voltage) 0 =
      some (max 0 (min 5 positive_voltage)) ∧
    appliedVoltage (switch_variable_snd master_state positive_state
        negative_state positive_voltage negative_voltage) 1 =
      some (max (-5) (min 0 negative_voltage)) ∧
    appliedVoltage (switch_variable_snd master_state positive_state
        negative_state 10 negative_voltage) 0 = some 5 ∧
    appliedVoltage (switch_variable_snd master_state positive_state
        negative_state positive_voltage (-10)) 1 = some (-5) ∧
    railEnableIdx (switch_variable_snd master_state positive_state
        negative_state positive_voltage negative_voltage) 0 <
      masterSwitchIdx (switch_variable_snd master_state positive_state
        negative_state positive_voltage negative_voltage) ∧
    railEnableIdx (switch_variable_snd master_state positive_state
        negative_state positive_voltage negative_voltage) 1 <
      masterSwitchIdx (switch_variable_snd master_state positive_state
        negative_state positive_voltage negative_voltage) := by
  refine ⟨rfl, rfl, ?_, ?_, ?_, ?_⟩
  · show some (max 0 (min 5 (10:ℚ))) = some 5
    norm_num
  · show some (max (-5) (min 0 (-10:ℚ))) = some (-5)
    norm_num
  · show (2:ℕ) < 4
    norm_num
  · show (3:ℕ) < 4
    norm_num

/-- Claim C9: the two successive source definitions of `_switch_variable_`
(lines 207-233 and 235-261) issue identical driver-call traces on every
input, so the redefinition is behaviourally a single operation. -/
theorem switch_variable_defs_equal
    (master_state positive_state negative_state : Bool)
    (positive_voltage negative_voltage : ℚ) :
    switch_variable_fst master_state positive_state negative_state
        positive_voltage negative_voltage =
      switch_variable_snd master_state positive_state negative_state
        positive_voltage negative_voltage := rfl

/-- Claim C7: a custom-function call of `generate_function` with `N`
caller-supplied voltage samples hands the device a buffer that is the
caller's list verbatim, with declared length `N`. -/
theorem generate_custom_verbatim (channel : ℤ)
    (offset frequency amplitude symmetry wait run_time : ℚ)
    (repeat_count : ℤ) (data : List ℚ) :
    sentData (generate_function channel FuncKind.custom offset frequency
        amplitude symmetry wait run_time repeat_count data) =
      some (data, (data.length : ℤ)) := by
  simp [generate_function, sentData, buildBuffer_eq]

/-- Claim C10: with the module-level name `data` unbound — which it is, since
nothing in the module ever assigns it and the `open_oscilloscope` lines that
would populate its attributes are commented out — every `open_AD2` call
raises `NameError` instead of returning a device record, and every
`record_oscilloscope` call that reaches its buffer-copy step (even after
`open_oscilloscope`) raises `NameError` as well, so neither operation can
return successfully. -/
theorem unbound_data_errors :
    (∀ new_handle : ℤ, open_AD2 moduleData new_handle =
      Except.error (PyError.nameError "data")) ∧
    (∀ devbuf : ℕ → ℚ,
      record_oscilloscope (open_oscilloscope moduleData) devbuf =
        Except.error (PyError.nameError "data")) :=
  ⟨fun _ => rfl, fun _ => rfl⟩

/-- Claim C8: a `record_oscilloscope` call whose polling loop observes a
"done" status stops the loop at the first such status reading; when the
module `data` record is bound, the call then returns a voltage buffer of
`buffer_size` samples together with a time vector of the same length whose
`i`-th entry is `i / sampling_frequency`. -/
theorem record_oscilloscope_spec (d : DwfData) (statuses : ℕ → ℤ)
    (devbuf : ℕ → ℚ) (hdone : ∃ n, statuses n = DwfStateDone) :
    statuses (pollIterations statuses hdone) = DwfStateDone ∧
    (∀ m, m < pollIterations statuses hdone → statuses m ≠ DwfStateDone) ∧
    ∃ buffer time, record_oscilloscope (some d) devbuf =
        Except.ok (buffer, time) ∧
      buffer.length = d.buffer_size ∧ time.length = buffer.length ∧
      ∀ i (hi : i < time.length), time[i] = (i : ℚ) / d.sampling_frequency := by
  refine ⟨Nat.find_spec hdone, fun m hm => Nat.find_min hdone hm, ?_⟩
  refine ⟨_, _, rfl, ?_, ?_, ?_⟩
  · simp only [List.length_map, List.length_range]
  · simp only [List.length_map, List.length_range]
  · intro i hi
    simp only [List.getElem_map, List.getElem_range]

/-- Witness for `record_oscilloscope_spec` at a concrete device record,
status stream and sample stream. -/
theorem record_oscilloscope_spec_witness :
    (2:ℤ) = DwfStateDone ∧
    (∀ m, m < pollIterations (fun _ : ℕ => (2:ℤ)) ⟨0, rfl⟩ →
      (2:ℤ) ≠ DwfStateDone) ∧
    ∃ buffer time,
      record_oscilloscope (some ⟨0, 100, 3⟩) (fun _ => 0) =
        Except.ok (buffer, time) ∧
      buffer.length = 3 ∧ time.length = buffer.length ∧
      ∀ i (hi : i < time.length), time[i] = (i : ℚ) / 100 :=
  record_oscilloscope_spec ⟨0, 100, 3⟩ (fun _ => 2) (fun _ => 0) ⟨0, rfl⟩

/-- Claim C1: for every sweep configuration whose `amplitude / step_size`
ratio is an integer `k`, the sweep records exactly `cycles * 2 * 2 * k`
`SweepSample` triples, whatever the device measures and whatever the clock
reads. -/
theorem sweep_sample_count (c : SweepConfig) (meas clock : ℕ → ℚ) (k : ℕ)
    (hstep : 0 < c.step_size)
    (hk : c.amplitude / c.step_size = (k : ℚ)) :
    (recordedSamples (mainSweep c meas clock)).length = c.cycles * 2 * 2 * k := by
  have h1 : (recordedSamples (mainSweep c meas clock)).length =
      (mainSweep c meas clock).Times.length := by
    simp [recordedSamples]
  rw [h1, mainSweep, sweepCycles_Times_length, phaseIters_eq c k hk]
  simp [initState]
  ring

/-- Witness for `sweep_sample_count` at `main`'s own constants: `step_count`
is 100 and 400 samples are recorded. -/
theorem sweep_sample_count_witness :
    0 < mainConfig.step_size ∧
    mainConfig.amplitude / mainConfig.step_size = ((100 : ℕ) : ℚ) ∧
    (recordedSamples (mainSweep mainConfig (fun _ => 0) (fun _ => 0))).length
      = 400 :=
  ⟨by norm_num [mainConfig], by norm_num [mainConfig],
    sweep_sample_count mainConfig (fun _ => 0) (fun _ => 0) 100
      (by norm_num [mainConfig]) (by norm_num [mainConfig])⟩

/-- Claim C2 (counterexample): at the concrete configuration
`start = 0, amplitude = 2, step_size = 1, settle_delay = 0, cycles = 1`
(with all measurements and clock readings 0), the drive voltage at the end of
the rising phase is 4, which is not within one `step_size` of
`start + amplitude = 2` — refuting the claim that it always is. -/
theorem rising_end_counterexample :
    ¬ (|(sweepPhase (fun _ => 0) (fun _ => 0) 0
          (⟨0, 2, 1, 0, 1⟩ : SweepConfig).step_size
          (⟨0, 2, 1, 0, 1⟩ : SweepConfig).settle_delay true
          (phaseIters ⟨0, 2, 1, 0, 1⟩) (initState ⟨0, 2, 1, 0, 1⟩)).power_up
        - ((⟨0, 2, 1, 0, 1⟩ : SweepConfig).start
            + (⟨0, 2, 1, 0, 1⟩ : SweepConfig).amplitude)|
      ≤ (⟨0, 2, 1, 0, 1⟩ : SweepConfig).step_size) := by
  norm_num [sweepPhase_power, phaseIters, rmap_steps, pyInt,
    Int.toNat_ofNat, initState, abs_le]

/-- Claim C2 (amended): because each phase loop runs `2 * step_count`
iterations (`range(0, rmap_steps*2)`), the drive voltage at the end of the
rising phase is `start_voltage + 2 * amplitude` exactly, and at the end of
the falling phase (hence at the end of every cycle and of the whole sweep)
it is `start_voltage` exactly. -/
theorem sweep_round_trip (c : SweepConfig) (meas clock : ℕ → ℚ) (k : ℕ)
    (hstep : 0 < c.step_size)
    (hk : c.amplitude / c.step_size = (k : ℚ)) :
    (sweepPhase meas clock (clock 0) c.step_size c.settle_delay true
        (phaseIters c) (initState c)).power_up =
      c.start + 2 * c.amplitude ∧
    (mainSweep c meas clock).power_up = c.start := by
  constructor
  · rw [sweepPhase_power, phaseIters_eq c k hk]
    have hamp : c.amplitude = (k : ℚ) * c.step_size :=
      (div_eq_iff (ne_of_gt hstep)).mp hk
    simp [initState, hamp]
    ring
  · rw [mainSweep, sweepCycles_power]
    rfl

/-- Witness for `sweep_round_trip` at `main`'s own constants: the rising
phase ends at `-5 + 2 * 5 = 5` volts and the sweep ends back at `-5`. -/
theorem sweep_round_trip_witness :
    (sweepPhase (fun _ => 0) (fun _ => 0) 0 mainConfig.step_size
        mainConfig.settle_delay true (phaseIters mainConfig)
        (initState mainConfig)).power_up =
      mainConfig.start + 2 * mainConfig.amplitude ∧
    (mainSweep mainConfig (fun _ => 0) (fun _ => 0)).power_up =
      mainConfig.start :=
  sweep_round_trip mainConfig (fun _ => 0) (fun _ => 0) 100
    (by norm_num [mainConfig]) (by norm_num [mainConfig])

/-- Claim C5: whenever the physical clock readings are monotone, the recorded
elapsed-time sequence (each entry a reading minus the start-of-sweep reading
`clock 0`) is non-decreasing and all its entries — in particular the first —
are nonnegative. -/
theorem sweep_times_monotone (c : SweepConfig) (meas clock : ℕ → ℚ)
    (hmono : Monotone clock) :
    (mainSweep c meas clock).Times.Pairwise (· ≤ ·) ∧
    ∀ t ∈ (mainSweep c meas clock).Times, 0 ≤ t := by
  have h : TimesFrom clock (clock 0) (mainSweep c meas clock) := by
    rw [mainSweep]
    refine sweepCycles_TimesFrom _ _ _ _ _ _ _ _ hmono ⟨?_, ?_⟩
    · intro t ht
      simp [initState] at ht
    · show List.Pairwise _ ([] : List ℚ)
      exact List.Pairwise.nil
  obtain ⟨hmem, hpw⟩ := h
  refine ⟨hpw, ?_⟩
  intro t ht
  obtain ⟨j, hj, hje⟩ := hmem t ht
  subst hje
  have h0 : clock 0 ≤ clock j := hmono (Nat.zero_le j)
  linarith

/-- Witness for `sweep_times_monotone` with the identity clock stream. -/
theorem sweep_times_monotone_witness :
    (mainSweep mainConfig (fun _ => 0) (fun n : ℕ => (n : ℚ))).Times.Pairwise
      (· ≤ ·) ∧
    ∀ t ∈ (mainSweep mainConfig (fun _ => 0) (fun n : ℕ => (n : ℚ))).Times,
      0 ≤ t :=
  sweep_times_monotone mainConfig (fun _ => 0) (fun n : ℕ => (n : ℚ))
    Nat.mono_cast

/-- Claim C6: when the amplitude is nonnegative but smaller than the step
size, `int(amplitude/amplitude_slope)` is zero, both phase loops of every
cycle run zero iterations, and the (total, terminating) sweep records no
samples at all. -/
theorem sweep_zero_steps (c : SweepConfig) (meas clock : ℕ → ℚ)
    (h0 : 0 ≤ c.amplitude) (hlt : c.amplitude < c.step_size) :
    (mainSweep c meas clock).Times = [] ∧
    (mainSweep c meas clock).ramp_measurements = [] ∧
    (mainSweep c meas clock).opamp_measurements = [] ∧
    recordedSamples (mainSweep c meas clock) = [] := by
  have hstep : 0 < c.step_size := lt_of_le_of_lt h0 hlt
  have hq0 : 0 ≤ c.amplitude / c.step_size := div_nonneg h0 (le_of_lt hstep)
  have hq1 : c.amplitude / c.step_size < 1 := (div_lt_one hstep).mpr hlt
  have hfloor : ⌊c.amplitude / c.step_size⌋ = 0 :=
    Int.floor_eq_zero_iff.mpr ⟨hq0, hq1⟩
  have hiters : phaseIters c = 0 := by
    rw [phaseIters, rmap_steps, pyInt, if_pos hq0, hfloor]
    rfl
  rw [mainSweep, hiters]
  obtain ⟨h1, h2, h3⟩ := sweepCycles_zero_iters meas clock (clock 0)
    c.step_size c.settle_delay c.cycles (initState c)
  refine ⟨?_, ?_, ?_, ?_⟩
  · simpa [initState] using h1
  · simpa [initState] using h2
  · simpa [initState] using h3
  · have ht : (sweepCycles meas clock (clock 0) c.step_size c.settle_delay 0
        c.cycles (initState c)).Times = [] := by simpa [initState] using h1
    simp [recordedSamples, ht]

/-- Witness for `sweep_zero_steps`: amplitude one half, step size one, three
cycles — no samples recorded. -/
theorem sweep_zero_steps_witness :
    (mainSweep ⟨0, 1/2, 1, 0, 3⟩ (fun _ => 0) (fun _ => 0)).Times = [] ∧
    (mainSweep ⟨0, 1/2, 1, 0, 3⟩ (fun _ => 0) (fun _ => 0)).ramp_measurements
      = [] ∧
    (mainSweep ⟨0, 1/2, 1, 0, 3⟩ (fun _ => 0) (fun _ => 0)).opamp_measurements
      = [] ∧
    recordedSamples (mainSweep ⟨0, 1/2, 1, 0, 3⟩ (fun _ => 0) (fun _ => 0))
      = [] :=
  sweep_zero_steps ⟨0, 1/2, 1, 0, 3⟩ (fun _ => 0) (fun _ => 0)
    (by norm_num) (by norm_num)

/-- Claim C3 (counterexample): in a concrete rising-phase iteration (the
first one, from `main`'s initial state, with unit step, zero settle delay and
all-zero streams) the elapsed-time append occurs at position 5 of the
iteration's event list, after the generator reconfiguration at position 4 —
refuting the claim that the elapsed time is appended together with the
samples before the output is stepped. -/
theorem iter_order_counterexample :
    ¬ ((iterEvents (fun _ => 0) (fun _ => 0) 0 1 0 true
          (initState mainConfig)).findIdx isAppendTime <
        (iterEvents (fun _ => 0) (fun _ => 0) 0 1 0 true
          (initState mainConfig)).findIdx isReconfigure) := by
  norm_num [iterEvents, isAppendTime, isReconfigure, List.findIdx_cons]

/-- Claim C3 (amended): every pass through a phase-loop body emits, in
order: measure channel 1, append that sample to `ramp_measurements`, measure
channel 2, append that sample to `opamp_measurements`, step the output (up
in the rising phase, down in the falling phase) and reconfigure the
generator, append the elapsed time, and finally wait the settle delay; in
particular the first seven events of any sweep with at least one cycle and
one iteration are exactly such a block. -/
theorem iter_event_order (c : SweepConfig) (meas clock : ℕ → ℚ)
    (hc : 0 < c.cycles) (hi : 0 < phaseIters c) :
    (mainSweep c meas clock).events.take 7 =
      [SweepEvent.measure 1, SweepEvent.appendRamp (meas 0),
       SweepEvent.measure 2, SweepEvent.appendOpamp (meas 1),
       SweepEvent.reconfigure (c.start + c.step_size),
       SweepEvent.appendTime (clock 1 - clock 0),
       SweepEvent.settleSleep c.settle_delay] ∧
    ∀ (start_time step settle : ℚ) (rising : Bool) (s : SweepState),
      (sweepIter meas clock start_time step settle rising s).events =
        s.events ++ iterEvents meas clock start_time step settle rising s := by
  refine ⟨?_, fun _ _ _ _ _ => rfl⟩
  obtain ⟨m, hm⟩ : ∃ m, c.cycles = m + 1 := ⟨c.cycles - 1, by omega⟩
  obtain ⟨p, hp⟩ : ∃ p, phaseIters c = p + 1 := ⟨phaseIters c - 1, by omega⟩
  obtain ⟨l₁, hl₁⟩ := sweepPhase_events_prefix meas clock (clock 0)
    c.step_size c.settle_delay true p
    (sweepIter meas clock (clock 0) c.step_size c.settle_delay true
      (initState c))
  obtain ⟨l₂, hl₂⟩ := sweepPhase_events_prefix meas clock (clock 0)
    c.step_size c.settle_delay false (p + 1)
    (sweepPhase meas clock (clock 0) c.step_size c.settle_delay true (p + 1)
      (initState c))
  obtain ⟨l₃, hl₃⟩ := sweepCycles_events_prefix meas clock (clock 0)
    c.step_size c.settle_delay (p + 1) m
    (sweepCycle meas clock (clock 0) c.step_size c.settle_delay (p + 1)
      (initState c))
  have he : (mainSweep c meas clock).events =
      iterEvents meas clock (clock 0) c.step_size c.settle_delay true
        (initState c) ++ (l₁ ++ (l₂ ++ l₃)) := by
    rw [mainSweep, hm, hp, sweepCycles, hl₃, sweepCycle]
    show (sweepPhase meas clock (clock 0) c.step_size c.settle_delay false
        (p + 1) (sweepPhase meas clock (clock 0) c.step_size c.settle_delay
          true (p + 1) (initState c))).events ++ l₃ = _
    rw [hl₂, sweepPhase, hl₁]
    show (((initState c).events ++ iterEvents meas clock (clock 0)
        c.step_size c.settle_delay true (initState c)) ++ l₁ ++ l₂) ++ l₃ = _
    simp [initState]
  rw [he]
  have h7 : (7 : ℕ) = (iterEvents meas clock (clock 0) c.step_size
      c.settle_delay true (initState c)).length := rfl
  rw [h7, List.take_left]
  rfl

/-- Witness for `iter_event_order` at `main`'s constants with all-zero
streams. -/
theorem iter_event_order_witness :
    (mainSweep mainConfig (fun _ => 0) (fun _ => 0)).events.take 7 =
      [SweepEvent.measure 1, SweepEvent.appendRamp 0,
       SweepEvent.measure 2, SweepEvent.appendOpamp 0,
       SweepEvent.reconfigure (mainConfig.start + mainConfig.step_size),
       SweepEvent.appendTime (0 - 0),
       SweepEvent.settleSleep mainConfig.settle_delay] :=
  (iter_event_order mainConfig (fun _ => 0) (fun _ => 0)
    (by norm_num [mainConfig])
    (by norm_num [phaseIters, rmap_steps, pyInt, mainConfig,
      Int.toNat_ofNat])).1

end AD2
